import Mathlib

/-!
Verification of the pydipapi request-execution and resilience core against its
natural-language specification.

The repository ships the core as a Python package (error classifier, rate
limiter, response cache, retry policy, request executor, pagination engine,
shared by a blocking and a concurrent client).  The package code itself is not
part of the checked-out sources here; what is present is the project
documentation: the testing guide, the bug report, and the improvement
proposal document, which quote and describe the core.  Definitions below are
therefore of two kinds:

* definitions translated from code fragments present in the repository
  (the retry-delay strategy from the improvement proposal, the cache
  write-to-temporary-then-replace sequence, the sync/async search endpoints
  recorded in the bug report), and
* definitions whose doc comment starts with "Modelled from the spec:", for
  core functions whose Python source is absent from the checkout and which
  are reconstructed faithfully from the specification's words.

Time is modelled as integer ticks (the code uses float seconds from
time.time(); only comparisons and differences of timestamps matter to the
properties proved here).  Payloads and records are opaque strings.
-/

/-- Error categories of section 3 of the spec: every transport outcome maps to
exactly one category. -/
inductive ErrorCategory where
  | unauthorized
  | forbidden
  | rateLimited
  | clientError
  | serverError
  | connectionFailure
  | timeout
  | malformed
deriving DecidableEq, Repr

/-- Modelled from the spec: retry eligibility flag of the Error Classifier
(section 4.1); the classifier's Python module is not in the checkout.
401/403/4xx/malformed are not retryable; 429/5xx/connection/timeout are. -/
def retryable : ErrorCategory → Bool
  | .rateLimited => true
  | .serverError => true
  | .connectionFailure => true
  | .timeout => true
  | _ => false

/-- A transport outcome: an HTTP status with a body, a connection-level
failure, a timeout, or a successfully transported but undecodable body. -/
inductive TransportOutcome where
  | status (code : Nat) (body : String)
  | connectionError
  | timedOut
  | undecodable
deriving DecidableEq, Repr

/-- A typed failure surfaced to the caller: category plus the original
status/exception detail. -/
structure ApiFailure where
  category : ErrorCategory
  detail : String
deriving DecidableEq, Repr

/-- Result of one logical request: decoded payload or typed failure. -/
abbrev RequestOutcome := Except ApiFailure String

instance {ε α : Type} [DecidableEq ε] [DecidableEq α] : DecidableEq (Except ε α) :=
  fun a b =>
    match a, b with
    | .ok x, .ok y => if h : x = y then isTrue (by rw [h]) else isFalse (by simp [h])
    | .ok _, .error _ => isFalse (by simp)
    | .error _, .ok _ => isFalse (by simp)
    | .error x, .error y => if h : x = y then isTrue (by rw [h]) else isFalse (by simp [h])

/-- Modelled from the spec: the Error Classifier of section 4.1 (its Python
module error_handler.py is absent from the checkout).  401 Unauthorized,
403 Forbidden, 429 RateLimited, 5xx ServerError, remaining 4xx ClientError,
connection refusal ConnectionFailure, timeout Timeout, undecodable body
Malformed; everything else is a success carrying the decoded body. -/
def classify : TransportOutcome → RequestOutcome
  | .status code body =>
      if code = 401 then .error ⟨.unauthorized, body⟩
      else if code = 403 then .error ⟨.forbidden, body⟩
      else if code = 429 then .error ⟨.rateLimited, body⟩
      else if 500 ≤ code then .error ⟨.serverError, body⟩
      else if 400 ≤ code then .error ⟨.clientError, body⟩
      else .ok body
  | .connectionError => .error ⟨.connectionFailure, "connection refused or reset"⟩
  | .timedOut => .error ⟨.timeout, "transport timeout"⟩
  | .undecodable => .error ⟨.malformed, "response body not decodable"⟩

/-- Retry strategies, from the improvement proposal document section 3.4
(class RetryStrategy). -/
inductive RetryStrategy where
  | EXPONENTIAL
  | LINEAR
  | FIXED
deriving DecidableEq, Repr

/-- Retry configuration of BaseApiClient from the improvement proposal
document section 3.4: a strategy plus an optional custom delay function. -/
structure RetryConfig where
  retry_strategy : RetryStrategy
  custom_retry_delay : Option (Nat → Int)

/-- The client's default retry configuration: the strategy argument defaults
to RetryStrategy.EXPONENTIAL and no custom delay function is installed
(improvement proposal document section 3.4, which also records that the
shipped retry logic is hardcoded exponential backoff). -/
def defaultRetryConfig : RetryConfig := ⟨.EXPONENTIAL, none⟩

/-- BaseApiClient._calculate_retry_delay from the improvement proposal
document section 3.4: a custom delay function wins; otherwise EXPONENTIAL
gives rate_limit_delay * 2 ^ attempt, LINEAR gives
rate_limit_delay * attempt, FIXED gives rate_limit_delay. -/
def calculate_retry_delay (cfg : RetryConfig) (rate_limit_delay : Int)
    (attempt : Nat) : Int :=
  match cfg.custom_retry_delay with
  | some f => f attempt
  | none =>
      match cfg.retry_strategy with
      | .EXPONENTIAL => rate_limit_delay * 2 ^ attempt
      | .LINEAR => rate_limit_delay * (attempt : Int)
      | .FIXED => rate_limit_delay

/-- Result of the Retry Policy: final outcome, total number of attempts
performed (the count includes the first try), and the list of backoff delays
slept between attempts. -/
structure RetryResult where
  outcome : RequestOutcome
  attempts : Nat
  delays : List Int
deriving Repr

/-- Modelled from the spec: the Retry Policy loop of section 4.4 (the Python
retry loop of base_client.py is absent from the checkout).  attemptNo is the
1-based attempt number, remaining the number of attempts still allowed.  Call
attempt, classify; on success return; on a retryable failure with attempts
remaining, sleep delayFn attemptNo and retry; on a non-retryable failure or
exhausted retries return the last failure.  At least one attempt is always
performed. -/
def RetryPolicy.go (attempt : Nat → TransportOutcome) (delayFn : Nat → Int) :
    Nat → Nat → RetryResult
  | n, 0 => ⟨classify (attempt n), 1, []⟩
  | n, 1 => ⟨classify (attempt n), 1, []⟩
  | n, r + 2 =>
      match classify (attempt n) with
      | .ok p => ⟨.ok p, 1, []⟩
      | .error f =>
          if retryable f.category then
            let res := RetryPolicy.go attempt delayFn (n + 1) (r + 1)
            ⟨res.outcome, res.attempts + 1, delayFn n :: res.delays⟩
          else ⟨.error f, 1, []⟩

/-- Modelled from the spec: RetryPolicy.execute of section 4.4, with
maxRetries counting total attempts including the first try. -/
def RetryPolicy.execute (attempt : Nat → TransportOutcome) (delayFn : Nat → Int)
    (maxRetries : Nat) : RetryResult :=
  RetryPolicy.go attempt delayFn 1 maxRetries

/-- Modelled from the spec: RateLimiter.acquire of section 4.2 (the Python
rate limiter of base_client.py is absent from the checkout).  Given the
timestamp of the most recent granted acquisition and the caller's arrival
time, the call completes once minDelay has elapsed since the previous
acquisition; it returns the completion time and the updated last-acquired
timestamp. -/
def RateLimiter.acquire (minDelay : Int) (last : Option Int) (now : Int) :
    Int × Int :=
  match last with
  | none => (now, now)
  | some t => (max now (t + minDelay), max now (t + minDelay))

/-- Byte-for-byte comparison of character lists, lexicographic by code
point.  Used to give the cache key derivation a stable parameter ordering;
written as a structural recursion so that concrete instances evaluate. -/
def listCharLe : List Char → List Char → Bool
  | [], _ => true
  | _ :: _, [] => false
  | a :: as, b :: bs =>
      if a < b then true
      else if a = b then listCharLe as bs
      else false

/-- Lexicographic order on query parameters: by key, then by value.  This is
the stable parameter ordering the spec requires before hashing. -/
def ParamLe (p q : String × String) : Prop :=
  (if p.1.data = q.1.data then listCharLe p.2.data q.2.data
   else listCharLe p.1.data q.1.data) = true

instance : DecidableRel ParamLe := fun p q => by
  unfold ParamLe
  infer_instance

/-- The logical request of section 3: endpoint name, query parameters (key
insertion order irrelevant for hashing), authentication key reference. -/
structure RequestDescriptor where
  endpoint : String
  params : List (String × String)
  api_key : String
deriving DecidableEq, Repr

/-- Modelled from the spec: descriptor normalization (stable parameter
ordering, section 4.5 step 1); parameters are put in a canonical sorted
order before the cache fingerprint is computed. -/
def normalizeDescriptor (d : RequestDescriptor) : RequestDescriptor :=
  { d with params := List.insertionSort ParamLe d.params }

/-- The fingerprint key space.  The code keys cache entries by a fixed-length
cryptographic hex digest of the normalized request; the digest is abstracted
here as the normalized (endpoint, parameters) content itself, i.e. the hash
is modelled as an injective function, which is exactly the spec's
collision-resistance assumption. -/
abbrev Fingerprint := String × List (String × String)

/-- Modelled from the spec: the cache fingerprint, a deterministic function
of the normalized RequestDescriptor (section 3 invariant, section 6 cache
file format). -/
def fingerprint (d : RequestDescriptor) : Fingerprint :=
  ((normalizeDescriptor d).endpoint, (normalizeDescriptor d).params)

/-- A cache entry: capture timestamp plus the opaque serialized payload
(cache file format of section 6: a record with a timestamp and a data
field). -/
structure CacheEntry where
  timestamp : Int
  data : String
deriving DecidableEq, Repr

/-- First-match lookup of a fingerprint in the cache store. -/
def findEntry : List (Fingerprint × CacheEntry) → Fingerprint → Option CacheEntry
  | [], _ => none
  | (k, e) :: rest, key => if k = key then some e else findEntry rest key

/-- The on-disk response cache, one entry per fingerprint; the most recent
write for a key shadows older ones (the code overwrites the entry file). -/
structure SimpleCache where
  entries : List (Fingerprint × CacheEntry)

/-- SimpleCache.find: read the entry stored for a fingerprint, newest
write first. -/
def SimpleCache.find (c : SimpleCache) (key : Fingerprint) : Option CacheEntry :=
  findEntry c.entries key

/-- SimpleCache.get, from the improvement proposal document section 2.3 and
spec section 4.3: compute the key, read the entry, return absent if missing
or expired; expiry is lazy, evaluated at read time as age > ttl (the TTL
check elided in the quoted snippet is modelled from the spec's words
"returns absent if missing or expired (age > ttl, measured at read
time)"). -/
def SimpleCache.get (c : SimpleCache) (key : Fingerprint) (now ttl : Int) :
    Option String :=
  match c.find key with
  | none => none
  | some e => if now - e.timestamp ≤ ttl then some e.data else none

/-- SimpleCache.set, from the improvement proposal document section 2.3 and
spec section 4.3: write an entry carrying the current timestamp; the new
entry shadows any previous entry for the same fingerprint. -/
def SimpleCache.set (c : SimpleCache) (key : Fingerprint) (now : Int)
    (data : String) : SimpleCache :=
  ⟨(key, ⟨now, data⟩) :: c.entries⟩

/-- Client state threaded through the Request Executor: the cache store, the
rate limiter's last-acquired timestamp, instrumentation counters for
transport attempts and rate-limiter acquisitions, and the logical clock. -/
structure ClientState where
  cache : SimpleCache
  last_acquire : Option Int
  transport_calls : Nat
  rate_limiter_calls : Nat
  now : Int

/-- Modelled from the spec: RequestExecutor.fetch of section 4.5 (the Python
_make_request of base_client.py is absent from the checkout).  Check the
cache first; on a hit return the cached payload without contacting the
transport or the rate limiter.  On a miss acquire the rate limiter, run the
Retry Policy around the transport attempt; on ultimate success write the
cache and return the payload, on ultimate failure write nothing and
propagate the typed error. -/
def RequestExecutor.fetch (transport : RequestDescriptor → Nat → TransportOutcome)
    (delayFn : Nat → Int) (ttl : Int) (maxRetries : Nat) (minDelay : Int)
    (d : RequestDescriptor) (s : ClientState) : RequestOutcome × ClientState :=
  let key := fingerprint d
  match s.cache.get key s.now ttl with
  | some p => (.ok p, s)
  | none =>
      let acq := RateLimiter.acquire minDelay s.last_acquire s.now
      let res := RetryPolicy.execute (transport d) delayFn maxRetries
      match res.outcome with
      | .ok p =>
          (.ok p,
           { s with
              cache := s.cache.set key s.now p,
              last_acquire := some acq.2,
              transport_calls := s.transport_calls + res.attempts,
              rate_limiter_calls := s.rate_limiter_calls + 1 })
      | .error f =>
          (.error f,
           { s with
              last_acquire := some acq.2,
              transport_calls := s.transport_calls + res.attempts,
              rate_limiter_calls := s.rate_limiter_calls + 1 })

/-- One page produced by a successful fetch: an ordered sequence of opaque
records and the continuation cursor (none is the exhausted sentinel). -/
structure Page where
  items : List String
  nextCursor : Option String

/-- Modelled from the spec: the Pagination Engine loop of section 4.6 (the
Python pagination loop of api.py, sketched in the improvement proposal
document section 3.3, is absent from the checkout).  Build the descriptor
from the cursor, fetch, stop on zero items or a missing cursor (Exhausted),
append at most remaining items (truncating the final page), stop once the
target is reached (Satisfied), and propagate a fetch failure immediately,
discarding the items accumulated so far.  fuel is a structural bound on the
number of iterations; every recursive call consumes at least one remaining
item, so fuel = remaining makes the fuel-exhausted arm coincide with the
remaining = 0 arm. -/
def PaginationEngine.go (fetch : String → Except ApiFailure Page) :
    Nat → String → Nat → List String → Nat → Except ApiFailure (List String × Nat)
  | 0, _, _, acc, fetches => .ok (acc, fetches)
  | fuel + 1, cursor, remaining, acc, fetches =>
      if remaining = 0 then .ok (acc, fetches)
      else
        match fetch cursor with
        | .error f => .error f
        | .ok page =>
            match page.items with
            | [] => .ok (acc, fetches + 1)
            | _ :: _ =>
                let taken := page.items.take remaining
                match page.nextCursor with
                | none => .ok (acc ++ taken, fetches + 1)
                | some c =>
                    PaginationEngine.go fetch fuel c (remaining - taken.length)
                      (acc ++ taken) (fetches + 1)

/-- Modelled from the spec: fetchN of section 4.6, returning the ordered
items together with the number of page fetches performed; the cursor starts
as the empty string ("first page"). -/
def PaginationEngine.fetchN (fetch : String → Except ApiFailure Page)
    (targetCount : Nat) : Except ApiFailure (List String × Nat) :=
  PaginationEngine.go fetch targetCount "" targetCount [] 0

/-- A source yielding pages of 10 records indefinitely (the spec's
pagination exact-count scenario). -/
def pagesOf10 : String → Except ApiFailure Page :=
  fun _ => .ok ⟨List.replicate 10 "rec", some "more"⟩

/-- A source yielding 7 records and then signalling exhaustion (the spec's
pagination exhaustion scenario). -/
def source7 : String → Except ApiFailure Page :=
  fun c => if c = "" then .ok ⟨List.replicate 7 "rec", none⟩ else .ok ⟨[], none⟩

/-- A source whose first page succeeds and whose second page fetch fails
with a server error (a fetch failure mid-pagination). -/
def failAt2 : String → Except ApiFailure Page :=
  fun c =>
    if c = "" then .ok ⟨List.replicate 10 "rec", some "page2"⟩
    else .error ⟨.serverError, "internal error"⟩

/-- An attempt that always fails with an HTTP 500 server error. -/
def serverErrAttempt : Nat → TransportOutcome := fun _ => .status 500 "boom"

/-- An attempt that fails with HTTP 401 Unauthorized on the first try. -/
def unauthAttempt : Nat → TransportOutcome := fun _ => .status 401 "bad key"

/-- The endpoint used by the blocking client's search_documents
(pydipapi/api.py line 304, as recorded in the repository bug report item
4): "drucksache". -/
def api_search_documents_endpoint : String := "drucksache"

/-- The endpoint used by the concurrent client's search_documents
(pydipapi/async_api.py line 291, as recorded in the repository bug report
item 4): "search". -/
def async_api_search_documents_endpoint : String := "search"

/-- The descriptor the blocking client's search_documents builds for a
query. -/
def search_documents_request (q : String) : RequestDescriptor :=
  ⟨api_search_documents_endpoint, [("q", q)], "key"⟩

/-- The descriptor the concurrent client's search_documents builds for the
same query (bug report item 4: a different endpoint). -/
def async_search_documents_request (q : String) : RequestDescriptor :=
  ⟨async_api_search_documents_endpoint, [("q", q)], "key"⟩

/-- A transport whose response body depends only on the endpoint queried:
it answers every request with HTTP 200 and a body naming the endpoint. -/
def endpointEchoTransport : RequestDescriptor → Nat → TransportOutcome :=
  fun d _ => .status 200 (String.append "documents-from-" d.endpoint)

/-- A fresh client state: empty cache, no previous acquisition, zeroed
counters, clock at 0. -/
def initialClientState : ClientState := ⟨⟨[]⟩, none, 0, 0, 0⟩

/-- The spec's concrete caching scenario: the person endpoint with
anzahl 10 and wahlperiode 20 (section 8). -/
def personRequest : RequestDescriptor :=
  ⟨"person", [("anzahl", "10"), ("wahlperiode", "20")], "key"⟩

/-- A transport answering every attempt with HTTP 200 and a fixed body. -/
def personTransport : RequestDescriptor → Nat → TransportOutcome :=
  fun _ _ => .status 200 "person-page"

/-- Content of one file of the cache store as a concurrent reader can
observe it: absent, a torn (partially written, unparseable) record, or one
complete entry. -/
inductive FileContent where
  | absent
  | torn (bytes : String)
  | complete (e : CacheEntry)
deriving DecidableEq, Repr

/-- The two files SimpleCache.set touches: the entry file a reader reads,
and the temporary file the writer streams into. -/
structure CacheFS where
  cache_file : FileContent
  temp_file : FileContent
deriving DecidableEq, Repr

/-- One atomic step of the cache writer, at the granularity a concurrent
reader can observe: streaming a partial record into the temporary file,
finishing the temporary file, or the atomic rename of the temporary file
over the entry file (Path.replace). -/
inductive WriteStep where
  | writeTempTorn (bytes : String)
  | writeTempComplete (e : CacheEntry)
  | renameTempOverCache

/-- Effect of one writer step on the two files; the rename installs the
temporary file's content as the entry file in a single step. -/
def stepFS (fs : CacheFS) : WriteStep → CacheFS
  | .writeTempTorn b => { fs with temp_file := .torn b }
  | .writeTempComplete e => { fs with temp_file := .complete e }
  | .renameTempOverCache => ⟨fs.temp_file, .absent⟩

/-- The step sequence of SimpleCache.set from the improvement proposal
document section 2.3: json.dump into the temporary file (observable
mid-write as a torn record), the dump completing, then
temp_file.replace(cache_file). -/
def setSteps (e : CacheEntry) (tornBytes : String) : List WriteStep :=
  [.writeTempTorn tornBytes, .writeTempComplete e, .renameTempOverCache]

/-- Parse a file as a cache entry: a torn or absent file fails to parse. -/
def readEntry : FileContent → Option CacheEntry
  | .complete e => some e
  | _ => none

/-- The file system a reader interleaved after the writer's first k steps
observes, starting from a complete old entry and an absent temporary
file. -/
def fsAfter (old : CacheEntry) (steps : List WriteStep) (k : Nat) : CacheFS :=
  (steps.take k).foldl stepFS ⟨.complete old, .absent⟩

/-- The retry loop performs at least one and at most max 1 remaining
attempts. -/
theorem RetryPolicy.go_attempts_le (attempt : Nat → TransportOutcome)
    (delayFn : Nat → Int) :
    ∀ r n, (RetryPolicy.go attempt delayFn n r).attempts ≤ max 1 r := by
  intro r
  induction r using Nat.strong_induction_on with
  | _ r ih =>
    match r with
    | 0 => intro n; simp [RetryPolicy.go]
    | 1 => intro n; simp [RetryPolicy.go]
    | r + 2 =>
        intro n
        simp only [RetryPolicy.go]
        cases h : classify (attempt n) with
        | ok p => simp
        | error f =>
            by_cases hr : retryable f.category = true
            · simp only [hr, if_true]
              have hle := ih (r + 1) (by omega) (n + 1)
              simp only [max_eq_right (by omega : 1 ≤ r + 1)] at hle
              simp only [max_eq_right (by omega : 1 ≤ r + 2)]
              omega
            · simp only [Bool.not_eq_true] at hr
              simp [hr]

/-- If the first attempt classifies as a success, the retry policy returns it
after exactly one attempt and no backoff sleeps. -/
theorem RetryPolicy.execute_ok_first (attempt : Nat → TransportOutcome)
    (delayFn : Nat → Int) (m : Nat) (p : String)
    (h : classify (attempt 1) = .ok p) :
    RetryPolicy.execute attempt delayFn m = ⟨.ok p, 1, []⟩ := by
  match m with
  | 0 => simp [RetryPolicy.execute, RetryPolicy.go, h]
  | 1 => simp [RetryPolicy.execute, RetryPolicy.go, h]
  | r + 2 => simp [RetryPolicy.execute, RetryPolicy.go, h]

/-- If the first attempt fails with a non-retryable category, the retry
policy returns that failure after exactly one attempt and no sleeps. -/
theorem RetryPolicy.execute_nonretryable (attempt : Nat → TransportOutcome)
    (delayFn : Nat → Int) (m : Nat) (f : ApiFailure)
    (h : classify (attempt 1) = .error f) (hr : retryable f.category = false) :
    RetryPolicy.execute attempt delayFn m = ⟨.error f, 1, []⟩ := by
  match m with
  | 0 => simp [RetryPolicy.execute, RetryPolicy.go, h]
  | 1 => simp [RetryPolicy.execute, RetryPolicy.go, h]
  | r + 2 => simp [RetryPolicy.execute, RetryPolicy.go, h, hr]

/-- Claim C1: with maxRetries = 3 and an attempt that always fails with a
retryable error, RetryPolicy.execute performs exactly 3 total attempts (the
count includes the first try) and returns the third attempt's failure; and
in general it never performs more than maxRetries attempts (maxRetries ≥ 1
per the configuration surface). -/
theorem retry_bound_exact_three (attempt : Nat → TransportOutcome)
    (delayFn : Nat → Int)
    (h : ∀ n, ∃ f : ApiFailure,
        classify (attempt n) = .error f ∧ retryable f.category = true) :
    ((RetryPolicy.execute attempt delayFn 3).attempts = 3 ∧
     (RetryPolicy.execute attempt delayFn 3).outcome = classify (attempt 3)) ∧
    ∀ (g : Nat → TransportOutcome) (dF : Nat → Int) (m : Nat), 1 ≤ m →
      (RetryPolicy.execute g dF m).attempts ≤ m := by
  constructor
  · obtain ⟨f1, h1, hr1⟩ := h 1
    obtain ⟨f2, h2, hr2⟩ := h 2
    simp [RetryPolicy.execute, RetryPolicy.go, h1, hr1, h2, hr2]
  · intro g dF m hm
    have := RetryPolicy.go_attempts_le g dF m 1
    simpa [RetryPolicy.execute, max_eq_right hm] using this

/-- Witness for C1 at a concrete always-500 attempt. -/
theorem retry_bound_exact_three_witness :
    ((RetryPolicy.execute serverErrAttempt (fun n => (n : Int)) 3).attempts = 3 ∧
     (RetryPolicy.execute serverErrAttempt (fun n => (n : Int)) 3).outcome =
       classify (serverErrAttempt 3)) ∧
    (RetryPolicy.execute serverErrAttempt (fun n => (n : Int)) 3).attempts ≤ 3 :=
  ⟨(retry_bound_exact_three serverErrAttempt (fun n => (n : Int))
      (fun _ => ⟨⟨.serverError, "boom"⟩, rfl, rfl⟩)).1,
   (retry_bound_exact_three serverErrAttempt (fun n => (n : Int))
      (fun _ => ⟨⟨.serverError, "boom"⟩, rfl, rfl⟩)).2
     serverErrAttempt (fun n => (n : Int)) 3 (by decide)⟩

/-- Claim C2: a non-retryable first failure short-circuits: the retry policy
performs exactly 1 attempt and surfaces the typed failure (category plus
original detail) unchanged, never a payload; and a fetch failure
mid-pagination propagates immediately as that typed failure, discarding the
10 items already accumulated from the first page. -/
theorem non_retryable_short_circuit :
    (∀ (attempt : Nat → TransportOutcome) (delayFn : Nat → Int)
        (f : ApiFailure) (m : Nat),
        classify (attempt 1) = .error f → retryable f.category = false →
        RetryPolicy.execute attempt delayFn m = ⟨.error f, 1, []⟩) ∧
    PaginationEngine.fetchN failAt2 25 = .error ⟨.serverError, "internal error"⟩ := by
  constructor
  · intro attempt delayFn f m h hr
    exact RetryPolicy.execute_nonretryable attempt delayFn m f h hr
  · decide

/-- Witness for C2 at a concrete 401 attempt. -/
theorem non_retryable_short_circuit_witness :
    RetryPolicy.execute unauthAttempt (fun n => (n : Int)) 3 =
      ⟨.error ⟨.unauthorized, "bad key"⟩, 1, []⟩ :=
  non_retryable_short_circuit.1 unauthAttempt (fun n => (n : Int))
    ⟨.unauthorized, "bad key"⟩ 3 rfl rfl

/-- Counterexample to claim C8 as stated: with the client's default retry
configuration and rate_limit_delay = 1, the delay before the retry following
attempt 1 is 2 (exponential), not baseDelay * attemptNumber = 1. -/
theorem retry_delay_not_linear_default :
    calculate_retry_delay defaultRetryConfig 1 1 = 2 ∧
    calculate_retry_delay defaultRetryConfig 1 1 ≠ 1 * 1 := by decide

/-- Claim C8 as amended: the delay between attempts is
calculate_retry_delay: baseDelay * 2 ^ attemptNumber under the default
EXPONENTIAL strategy, baseDelay * attemptNumber only under the LINEAR
strategy, and constant baseDelay under FIXED; with the LINEAR strategy
installed, a run of the retry policy over an always-failing attempt with
maxRetries = 3 sleeps the linear schedule baseDelay * 1 then baseDelay * 2
between its attempts. -/
theorem retry_delay_strategy_schedules :
    (∀ (base : Int) (n : Nat),
        calculate_retry_delay ⟨.LINEAR, none⟩ base n = base * (n : Int)) ∧
    (∀ (base : Int) (n : Nat),
        calculate_retry_delay ⟨.EXPONENTIAL, none⟩ base n = base * 2 ^ n) ∧
    (∀ (base : Int) (n : Nat),
        calculate_retry_delay ⟨.FIXED, none⟩ base n = base) ∧
    defaultRetryConfig = ⟨.EXPONENTIAL, none⟩ ∧
    (∀ base : Int,
        (RetryPolicy.execute serverErrAttempt
            (calculate_retry_delay ⟨.LINEAR, none⟩ base) 3).delays =
          [base * 1, base * 2]) := by
  refine ⟨fun base n => rfl, fun base n => rfl, fun base n => rfl, rfl, fun base => ?_⟩
  simp [RetryPolicy.execute, RetryPolicy.go, serverErrAttempt, classify,
    retryable, calculate_retry_delay]

/-- The pagination loop never accumulates more than the remaining budget on
top of what it already holds. -/
theorem PaginationEngine.go_length_le (fetch : String → Except ApiFailure Page) :
    ∀ (fuel : Nat) (cursor : String) (remaining : Nat) (acc : List String)
      (fetches : Nat) (res : List String × Nat),
      PaginationEngine.go fetch fuel cursor remaining acc fetches = .ok res →
      res.1.length ≤ acc.length + remaining := by
  intro fuel
  induction fuel with
  | zero =>
      intro cursor remaining acc fetches res h
      simp only [PaginationEngine.go] at h
      cases h
      simp
  | succ fuel ih =>
      intro cursor remaining acc fetches res h
      simp only [PaginationEngine.go] at h
      by_cases h0 : remaining = 0
      · simp only [h0, if_true] at h
        cases h
        simp
      · simp only [h0, if_false] at h
        cases hf : fetch cursor with
        | error f => simp only [hf] at h; cases h
        | ok page =>
            simp only [hf] at h
            cases hi : page.items with
            | nil =>
                simp only [hi] at h
                cases h
                simp
            | cons x xs =>
                simp only [hi] at h
                have htk : (page.items.take remaining).length ≤ remaining := by
                  simp [List.length_take]
                cases hc : page.nextCursor with
                | none =>
                    simp only [hc] at h
                    cases h
                    simp only [List.length_append, hi]
                    simp only [hi] at htk
                    omega
                | some c =>
                    simp only [hc] at h
                    have := ih c (remaining - ((x :: xs).take remaining).length)
                      (acc ++ (x :: xs).take remaining) (fetches + 1) res h
                    simp only [List.length_append] at this
                    simp only [hi] at htk
                    omega

/-- Claim C3: fetchN never returns more than targetCount items; against an
inexhaustible source of 10-item pages, fetchN 25 returns exactly 25 items in
exactly 3 page fetches (truncating the third page); and against a source
that supplies 7 items and then signals exhaustion, fetchN 100 returns
exactly those 7 items, without error, in one fetch. -/
theorem pagination_exact_count :
    (∀ (fetch : String → Except ApiFailure Page) (targetCount : Nat)
        (res : List String × Nat),
        PaginationEngine.fetchN fetch targetCount = .ok res →
        res.1.length ≤ targetCount) ∧
    PaginationEngine.fetchN pagesOf10 25 = .ok (List.replicate 25 "rec", 3) ∧
    PaginationEngine.fetchN source7 100 = .ok (List.replicate 7 "rec", 1) := by
  refine ⟨?_, by decide, by decide⟩
  intro fetch targetCount res h
  have := PaginationEngine.go_length_le fetch targetCount "" targetCount [] 0 res h
  simpa using this

/-- Witness for C3's universal bound at the exhaustion scenario. -/
theorem pagination_exact_count_witness :
    PaginationEngine.fetchN source7 100 = .ok (List.replicate 7 "rec", 1) ∧
    (List.replicate 7 "rec", 1).1.length ≤ 100 :=
  ⟨by decide, pagination_exact_count.1 source7 100 (List.replicate 7 "rec", 1) (by decide)⟩

/-- Claim C4, divergence recorded in the repository bug report (item 4): the
blocking client's search_documents queries endpoint "drucksache" while the
concurrent client's queries endpoint "search", so against one and the same
transport the two variants return different payloads for the same logical
query — the sync/async external contracts are not the same. -/
theorem search_documents_sync_async_divergence :
    api_search_documents_endpoint ≠ async_api_search_documents_endpoint ∧
    (RequestExecutor.fetch endpointEchoTransport (fun n => (n : Int)) 300 3 100
        (search_documents_request "Haushalt") initialClientState).1 =
      .ok "documents-from-drucksache" ∧
    (RequestExecutor.fetch endpointEchoTransport (fun n => (n : Int)) 300 3 100
        (async_search_documents_request "Haushalt") initialClientState).1 =
      .ok "documents-from-search" ∧
    (Except.ok "documents-from-drucksache" : RequestOutcome) ≠
      .ok "documents-from-search" := by
  refine ⟨by decide, by decide, by decide, by decide⟩

/-- Claim C9: two consecutive acquisitions on one client instance complete
no less than minDelay apart: the completion time of the second acquire is at
least minDelay after the completion time of the first, for every arrival
times and every prior state of the limiter. -/
theorem rate_limiter_spacing (minDelay : Int) (last0 : Option Int) (t1 t2 : Int) :
    (RateLimiter.acquire minDelay
        (some (RateLimiter.acquire minDelay last0 t1).2) t2).1 ≥
      (RateLimiter.acquire minDelay last0 t1).1 + minDelay := by
  cases last0 with
  | none => exact le_max_right _ _
  | some t => exact le_max_right _ _

/-- Claim C10: a reader interleaved at any point of the cache writer's
write-to-temporary-then-atomically-replace sequence parses the entry file as
either the old complete entry or the new complete entry — never as the torn
record, which only ever exists in the temporary file. -/
theorem atomic_cache_write (old newE : CacheEntry) (tornBytes : String) (k : Nat) :
    readEntry (fsAfter old (setSteps newE tornBytes) k).cache_file = some old ∨
    readEntry (fsAfter old (setSteps newE tornBytes) k).cache_file = some newE := by
  match k with
  | 0 => left; rfl
  | 1 => left; rfl
  | 2 => left; rfl
  | n + 3 =>
      right
      have hlen : (setSteps newE tornBytes).length ≤ n + 3 := by
        simp [setSteps]
      rw [fsAfter, List.take_of_length_le hlen]
      rfl

/-- Writing an entry makes it the one found for its fingerprint. -/
theorem SimpleCache.find_set (c : SimpleCache) (key : Fingerprint) (t0 : Int)
    (payload : String) :
    (c.set key t0 payload).find key = some ⟨t0, payload⟩ := by
  simp [SimpleCache.set, SimpleCache.find, findEntry]

/-- Claim C5: SimpleCache.get returns the stored payload iff an entry for
the fingerprint exists and its age at read time is at most ttl (expiry is
evaluated lazily at read time); in particular an entry written at t0 with
ttl T is returned at t0 + T - ε and treated as absent at t0 + T + ε, for
every ε > 0. -/
theorem cache_ttl_boundary :
    (∀ (c : SimpleCache) (key : Fingerprint) (now ttl : Int) (p : String),
        c.get key now ttl = some p ↔
          ∃ e : CacheEntry, c.find key = some e ∧ e.data = p ∧
            now - e.timestamp ≤ ttl) ∧
    (∀ (c : SimpleCache) (key : Fingerprint) (t0 T ε : Int) (payload : String),
        0 < ε →
        (c.set key t0 payload).get key (t0 + T - ε) T = some payload ∧
        (c.set key t0 payload).get key (t0 + T + ε) T = none) := by
  constructor
  · intro c key now ttl p
    unfold SimpleCache.get
    cases h : c.find key with
    | none => simp
    | some e =>
        show (if now - e.timestamp ≤ ttl then some e.data else none) = some p ↔
          ∃ e2 : CacheEntry, some e = some e2 ∧ e2.data = p ∧ now - e2.timestamp ≤ ttl
        by_cases hle : now - e.timestamp ≤ ttl
        · rw [if_pos hle]
          constructor
          · intro hp
            exact ⟨e, rfl, Option.some.inj hp, hle⟩
          · rintro ⟨e2, he2, hdata, _⟩
            have he : e = e2 := Option.some.inj he2
            rw [he, hdata]
        · rw [if_neg hle]
          constructor
          · intro hp
            exact Option.noConfusion hp
          · rintro ⟨e2, he2, _, hle2⟩
            have he : e = e2 := Option.some.inj he2
            rw [← he] at hle2
            exact absurd hle2 hle
  · intro c key t0 T ε payload hε
    constructor
    · unfold SimpleCache.get
      rw [SimpleCache.find_set]
      show (if t0 + T - ε - (⟨t0, payload⟩ : CacheEntry).timestamp ≤ T
            then some (⟨t0, payload⟩ : CacheEntry).data else none) = some payload
      have hc : t0 + T - ε - (⟨t0, payload⟩ : CacheEntry).timestamp ≤ T := by
        show t0 + T - ε - t0 ≤ T
        omega
      rw [if_pos hc]
    · unfold SimpleCache.get
      rw [SimpleCache.find_set]
      show (if t0 + T + ε - (⟨t0, payload⟩ : CacheEntry).timestamp ≤ T
            then some (⟨t0, payload⟩ : CacheEntry).data else none) = none
      have hc : ¬(t0 + T + ε - (⟨t0, payload⟩ : CacheEntry).timestamp ≤ T) := by
        show ¬(t0 + T + ε - t0 ≤ T)
        omega
      rw [if_neg hc]

/-- Witness for C5 at a concrete entry: written at 0 with ttl 10, present at
time 9, absent at time 11. -/
theorem cache_ttl_boundary_witness :
    ((⟨[]⟩ : SimpleCache).set ("person", [("anzahl", "10")]) 0 "payload").get
        ("person", [("anzahl", "10")]) (0 + 10 - 1) 10 = some "payload" ∧
    ((⟨[]⟩ : SimpleCache).set ("person", [("anzahl", "10")]) 0 "payload").get
        ("person", [("anzahl", "10")]) (0 + 10 + 1) 10 = none :=
  cache_ttl_boundary.2 ⟨[]⟩ ("person", [("anzahl", "10")]) 0 10 1 "payload" (by decide)

/-- An empty cache misses every key. -/
theorem SimpleCache.get_empty (c : SimpleCache) (key : Fingerprint)
    (now ttl : Int) (h : c.entries = []) : c.get key now ttl = none := by
  unfold SimpleCache.get SimpleCache.find
  rw [h]
  rfl

/-- A freshly written entry read within its ttl window yields its payload. -/
theorem SimpleCache.get_set_fresh (c : SimpleCache) (key : Fingerprint)
    (t0 δ ttl : Int) (payload : String) (h : δ ≤ ttl) :
    (c.set key t0 payload).get key (t0 + δ) ttl = some payload := by
  unfold SimpleCache.get
  rw [SimpleCache.find_set]
  show (if t0 + δ - (⟨t0, payload⟩ : CacheEntry).timestamp ≤ ttl
        then some (⟨t0, payload⟩ : CacheEntry).data else none) = some payload
  have hc : t0 + δ - (⟨t0, payload⟩ : CacheEntry).timestamp ≤ ttl := by
    show t0 + δ - t0 ≤ ttl
    omega
  rw [if_pos hc]

/-- Claim C6: issuing the same logical request twice within the TTL window
serves the second call from the cache: both calls return the identical
payload, the transport is invoked exactly once in total across the two
calls, and the cache hit contacts neither the transport nor the rate
limiter (counters and the limiter's timestamp are untouched and the cache
is unchanged). -/
theorem cache_hit_second_fetch
    (transport : RequestDescriptor → Nat → TransportOutcome) (delayFn : Nat → Int)
    (ttl : Int) (maxRetries : Nat) (minDelay : Int) (d : RequestDescriptor)
    (s0 : ClientState) (δ : Int) (p : String)
    (r1 r2 : RequestOutcome) (s1 s2 : ClientState)
    (hcache : s0.cache.entries = [])
    (hok : classify (transport d 1) = .ok p)
    (hδ : δ ≤ ttl)
    (h1 : RequestExecutor.fetch transport delayFn ttl maxRetries minDelay d s0
            = (r1, s1))
    (h2 : RequestExecutor.fetch transport delayFn ttl maxRetries minDelay d
            { s1 with now := s1.now + δ } = (r2, s2)) :
    r1 = .ok p ∧ r2 = .ok p ∧
    s2.transport_calls = s0.transport_calls + 1 ∧
    s2.transport_calls = s1.transport_calls ∧
    s2.rate_limiter_calls = s1.rate_limiter_calls ∧
    s2.last_acquire = s1.last_acquire ∧
    s2.cache = s1.cache := by
  have hget1 : s0.cache.get (fingerprint d) s0.now ttl = none :=
    SimpleCache.get_empty s0.cache (fingerprint d) s0.now ttl hcache
  have hexec := RetryPolicy.execute_ok_first (transport d) delayFn maxRetries p hok
  simp only [RequestExecutor.fetch, hget1, hexec] at h1
  rw [Prod.mk.injEq] at h1
  obtain ⟨hr1, hs1⟩ := h1
  have hget2 : (s0.cache.set (fingerprint d) s0.now p).get (fingerprint d)
      (s0.now + δ) ttl = some p :=
    SimpleCache.get_set_fresh s0.cache (fingerprint d) s0.now δ ttl p hδ
  rw [← hs1] at h2
  simp only [RequestExecutor.fetch, hget2] at h2
  rw [Prod.mk.injEq] at h2
  obtain ⟨hr2, hs2⟩ := h2
  refine ⟨hr1.symm, hr2.symm, ?_, ?_, ?_, ?_, ?_⟩ <;>
    simp only [← hs2, ← hs1]

/-- Witness for C6 at the spec's concrete person-endpoint scenario. -/
theorem cache_hit_second_fetch_witness :
    let step1 := RequestExecutor.fetch personTransport (fun n => (n : Int)) 300 3
      100 personRequest initialClientState
    let step2 := RequestExecutor.fetch personTransport (fun n => (n : Int)) 300 3
      100 personRequest { step1.2 with now := step1.2.now + 1 }
    step1.1 = .ok "person-page" ∧ step2.1 = .ok "person-page" ∧
    step2.2.transport_calls = initialClientState.transport_calls + 1 ∧
    step2.2.transport_calls = step1.2.transport_calls ∧
    step2.2.rate_limiter_calls = step1.2.rate_limiter_calls ∧
    step2.2.last_acquire = step1.2.last_acquire ∧
    step2.2.cache = step1.2.cache :=
  cache_hit_second_fetch personTransport (fun n => (n : Int)) 300 3 100
    personRequest initialClientState 1 "person-page" _ _ _ _ rfl rfl (by decide)
    rfl rfl

/-- The lexicographic byte comparison is reflexive. -/
theorem listCharLe_refl : ∀ a : List Char, listCharLe a a = true := by
  intro a
  induction a with
  | nil => rfl
  | cons x xs ih => simp [listCharLe, lt_irrefl, ih]

/-- The lexicographic byte comparison is total. -/
theorem listCharLe_total : ∀ a b : List Char,
    listCharLe a b = true ∨ listCharLe b a = true := by
  intro a
  induction a with
  | nil => intro b; left; rfl
  | cons x xs ih =>
      intro b
      cases b with
      | nil => right; rfl
      | cons y ys =>
          rcases lt_trichotomy x y with hlt | heq | hgt
          · left; simp [listCharLe, hlt]
          · subst heq
            rcases ih ys with h | h
            · left; simp [listCharLe, lt_irrefl, h]
            · right; simp [listCharLe, lt_irrefl, h]
          · right; simp [listCharLe, hgt]

/-- The lexicographic byte comparison is transitive. -/
theorem listCharLe_trans : ∀ a b c : List Char,
    listCharLe a b = true → listCharLe b c = true → listCharLe a c = true := by
  intro a
  induction a with
  | nil => intro b c h1 h2; rfl
  | cons x xs ih =>
      intro b c h1 h2
      cases b with
      | nil => simp [listCharLe] at h1
      | cons y ys =>
          cases c with
          | nil => simp [listCharLe] at h2
          | cons z zs =>
              simp only [listCharLe] at h1 h2 ⊢
              by_cases hxy : x < y
              · by_cases hyz : y < z
                · simp [lt_trans hxy hyz]
                · by_cases hyzeq : y = z
                  · subst hyzeq; simp [hxy]
                  · simp [hyz, hyzeq] at h2
              · by_cases hxyeq : x = y
                · subst hxyeq
                  simp only [lt_irrefl, if_false, if_pos rfl] at h1
                  by_cases hxz : x < z
                  · simp [hxz]
                  · by_cases hxzeq : x = z
                    · subst hxzeq
                      simp only [lt_irrefl, if_false, if_pos rfl] at h2 ⊢
                      exact ih ys zs h1 h2
                    · simp [hxz, hxzeq] at h2
                · simp [hxy, hxyeq] at h1

/-- The lexicographic byte comparison is antisymmetric. -/
theorem listCharLe_antisymm : ∀ a b : List Char,
    listCharLe a b = true → listCharLe b a = true → a = b := by
  intro a
  induction a with
  | nil =>
      intro b h1 h2
      cases b with
      | nil => rfl
      | cons y ys => simp [listCharLe] at h2
  | cons x xs ih =>
      intro b h1 h2
      cases b with
      | nil => simp [listCharLe] at h1
      | cons y ys =>
          simp only [listCharLe] at h1 h2
          by_cases hxy : x < y
          · have hyx : ¬y < x := lt_asymm hxy
            have hne : y ≠ x := ne_of_gt hxy
            simp [hyx, hne] at h2
          · by_cases hxyeq : x = y
            · subst hxyeq
              simp only [lt_irrefl, if_false, if_pos rfl] at h1 h2
              rw [ih ys h1 h2]
            · simp [hxy, hxyeq] at h1

/-- Two strings with the same character data are the same string. -/
theorem string_eq_of_data {a b : String} (h : a.data = b.data) : a = b := by
  cases a
  cases b
  exact congrArg String.mk h

/-- The parameter ordering is total. -/
theorem paramLe_total : ∀ p q : String × String, ParamLe p q ∨ ParamLe q p := by
  intro p q
  unfold ParamLe
  by_cases hk : p.1.data = q.1.data
  · rw [if_pos hk, if_pos hk.symm]
    exact listCharLe_total _ _
  · rw [if_neg hk, if_neg (fun h => hk h.symm)]
    exact listCharLe_total _ _

/-- The parameter ordering is transitive. -/
theorem paramLe_trans : ∀ p q r : String × String,
    ParamLe p q → ParamLe q r → ParamLe p r := by
  intro p q r h1 h2
  unfold ParamLe at h1 h2 ⊢
  by_cases hpq : p.1.data = q.1.data
  · by_cases hqr : q.1.data = r.1.data
    · have hpr : p.1.data = r.1.data := hpq.trans hqr
      rw [if_pos hpq] at h1
      rw [if_pos hqr] at h2
      rw [if_pos hpr]
      exact listCharLe_trans _ _ _ h1 h2
    · have hpr : ¬p.1.data = r.1.data := by rw [hpq]; exact hqr
      rw [if_neg hqr] at h2
      rw [if_neg hpr, hpq]
      exact h2
  · by_cases hqr : q.1.data = r.1.data
    · have hpr : ¬p.1.data = r.1.data := by rw [← hqr]; exact hpq
      rw [if_neg hpq] at h1
      rw [if_neg hpr, ← hqr]
      exact h1
    · rw [if_neg hpq] at h1
      rw [if_neg hqr] at h2
      by_cases hpr : p.1.data = r.1.data
      · exfalso
        have h3 : listCharLe q.1.data p.1.data = true := by rw [hpr]; exact h2
        exact hpq (listCharLe_antisymm _ _ h1 h3)
      · rw [if_neg hpr]
        exact listCharLe_trans _ _ _ h1 h2

/-- The parameter ordering is antisymmetric. -/
theorem paramLe_antisymm : ∀ p q : String × String,
    ParamLe p q → ParamLe q p → p = q := by
  intro p q h1 h2
  unfold ParamLe at h1 h2
  by_cases hk : p.1.data = q.1.data
  · rw [if_pos hk] at h1
    rw [if_pos hk.symm] at h2
    have hfst : p.1 = q.1 := string_eq_of_data hk
    have hsnd : p.2 = q.2 := string_eq_of_data (listCharLe_antisymm _ _ h1 h2)
    exact Prod.ext hfst hsnd
  · rw [if_neg hk] at h1
    rw [if_neg (fun h => hk h.symm)] at h2
    exact absurd (listCharLe_antisymm _ _ h1 h2) hk

/-- Claim C7: the cache fingerprint is a deterministic function of the
normalized descriptor: descriptors with the same endpoint and the same
parameter set in a different insertion order have equal fingerprints; and
conversely (with the cryptographic hash abstracted as injective, which is
the spec's collision-resistance assumption) equal fingerprints force the
same endpoint and the same parameter multiset — two different logical
requests never share a fingerprint. -/
theorem fingerprint_deterministic :
    (∀ (e ak : String) (p1 p2 : List (String × String)), p1.Perm p2 →
        fingerprint ⟨e, p1, ak⟩ = fingerprint ⟨e, p2, ak⟩) ∧
    (∀ d1 d2 : RequestDescriptor, fingerprint d1 = fingerprint d2 →
        d1.endpoint = d2.endpoint ∧ d1.params.Perm d2.params) := by
  haveI instTot : IsTotal (String × String) ParamLe := ⟨paramLe_total⟩
  haveI instTrans : IsTrans (String × String) ParamLe := ⟨paramLe_trans⟩
  haveI instAnti : IsAntisymm (String × String) ParamLe := ⟨paramLe_antisymm⟩
  constructor
  · intro e ak p1 p2 hperm
    show ((e : String), List.insertionSort ParamLe p1) =
      (e, List.insertionSort ParamLe p2)
    have hs : List.insertionSort ParamLe p1 = List.insertionSort ParamLe p2 :=
      @List.eq_of_perm_of_sorted _ ParamLe instAnti _ _
        ((List.perm_insertionSort ParamLe p1).trans
          (hperm.trans (List.perm_insertionSort ParamLe p2).symm))
        (List.sorted_insertionSort ParamLe p1)
        (List.sorted_insertionSort ParamLe p2)
    rw [hs]
  · intro d1 d2 h
    have h2 : (d1.endpoint, List.insertionSort ParamLe d1.params) =
        (d2.endpoint, List.insertionSort ParamLe d2.params) := h
    rw [Prod.mk.injEq] at h2
    obtain ⟨he, hp⟩ := h2
    refine ⟨he, ?_⟩
    exact ((List.perm_insertionSort ParamLe d1.params).symm.trans
      (hp ▸ List.perm_insertionSort ParamLe d2.params))

/-- Witness for C7: the spec's concrete parameter pair in both insertion
orders yields the same fingerprint. -/
theorem fingerprint_deterministic_witness :
    fingerprint ⟨"person", [("wahlperiode", "20"), ("anzahl", "10")], "key"⟩ =
      fingerprint ⟨"person", [("anzahl", "10"), ("wahlperiode", "20")], "key"⟩ :=
  fingerprint_deterministic.1 "person" "key"
    [("wahlperiode", "20"), ("anzahl", "10")]
    [("anzahl", "10"), ("wahlperiode", "20")]
    (List.Perm.swap ("anzahl", "10") ("wahlperiode", "20") [])
